import Mathlib

/-!
Shallow embedding of the RecketJS client session layer
(src/src/index.ts, class RecketClient).

The client is single threaded and event driven: every transport callback,
timer callback and public method call runs to completion before the next
one starts.  We therefore model the client as a step function on an
explicit state record, fed by a list of input events (method calls,
socket callbacks, timer firings).  Transport sends, promise settlements,
event handler invocations and timer creations are recorded as outputs.

Modelling conventions, each justified by the source:
* Correlation identifiers are generated by the client as Date.now
  concatenated with a random base36 suffix; the construction exists only
  to make them unique, so the model draws them from a counter.
  Identifiers appearing on the wire are nonempty strings, hence truthy
  when present; frames therefore carry Option Nat identifiers where
  presence stands for truthiness.
* A deadline timer is armed exactly while its identifier is in the
  pending table: on every path of the source the clearTimeout call and
  the table deletion happen together (matching response, deadline
  firing, channel close), so membership in the pending list models an
  armed timer.
* socket.send never throws while readyState is OPEN, the only state in
  which this client sends, so sends are modelled as always succeeding.
* Handlers registered with the on method are external code; invoking one
  is recorded as a notify output rather than executed, and the handler
  of an inbound server request is likewise recorded as a handlerInvoked
  output.  URL assembly and transport selection are out of scope.
-/

namespace Recket

/-- JSON style values carried in frames.  The obj constructor stands for
any object or array value, which is always truthy in JavaScript. -/
inductive Json where
  | null
  | bool (b : Bool)
  | num (n : Int)
  | str (s : String)
  | obj (tag : Nat)
deriving DecidableEq

/-- JavaScript truthiness of a value. -/
def Json.truthy : Json → Bool
  | .null => false
  | .bool b => b
  | .num n => n != 0
  | .str s => !s.isEmpty
  | .obj _ => true

/-- An error object with code and message, as used on the wire and in
promise rejections. -/
structure Err where
  code : Nat
  message : String
deriving DecidableEq

/-- The request part of a parsed inbound frame. -/
structure ReqPart where
  id : Option Nat
  endpoint : Option String
  data : Json
deriving DecidableEq

/-- The response part of a parsed inbound frame. -/
structure RespPart where
  id : Option Nat
  data : Json
  error : Option Err
deriving DecidableEq

/-- A parsed inbound frame after the destructuring in socket.onmessage:
const (event, data, request, response) = JSON.parse(message.data). -/
structure Frame where
  event : Option String
  data : Json
  request : Option ReqPart
  response : Option RespPart
deriving DecidableEq

/-- WebSocket readiness states. -/
inductive ReadyState where
  | CONNECTING
  | OPEN
  | CLOSING
  | CLOSED
deriving DecidableEq

/-- Observable effects of a step. -/
inductive Output where
  | sentEvent (event : String) (data : Json)
  | sentRequest (id : Nat) (endpoint : String) (data : Json)
  | sentResponse (id : Nat) (data : Json) (error : Option Err)
  | resolved (id : Nat) (data : Json)
  | rejected (id : Nat) (e : Err)
  | rejectedImmediate (e : Err)
  | notify (event : String) (arg : Option Json)
  | scheduledReconnect (delayMs : Nat)
  | handlerInvoked (id : Nat) (endpoint : String) (data : Json)
  | threw (message : String)
deriving DecidableEq

/-- Construction time options, mirroring the optional fields of the
constructor options argument. -/
structure Options where
  reconnectionAttempts : Option Nat
  reconnectionDelay : Option Nat
  shouldReconnect : Option Bool
deriving DecidableEq

/-- The mutable fields of class RecketClient that the claims are about,
plus the readiness state of the current socket. -/
structure ClientState where
  readyState : ReadyState
  pendingRequests : List Nat
  nextId : Nat
  allowServerRequests : Bool
  requestHandlers : List String
  reconnectionAttempts : Nat
  reconnectionDelay : Nat
  shouldReconnect : Bool
  currentAttempt : Nat
  isManuallyDisconnected : Bool
  eventQueue : List (String × Json)
  reconnectTimers : Nat
deriving DecidableEq

/-- The constructor: defaults reconnectionAttempts 5, reconnectionDelay
1000, shouldReconnect true, then initializeSocket creates a socket in
the CONNECTING state. -/
def mkClient (o : Options) : ClientState :=
  { readyState := .CONNECTING
    pendingRequests := []
    nextId := 0
    allowServerRequests := false
    requestHandlers := []
    reconnectionAttempts := o.reconnectionAttempts.getD 5
    reconnectionDelay := o.reconnectionDelay.getD 1000
    shouldReconnect := o.shouldReconnect.getD true
    currentAttempt := 0
    isManuallyDisconnected := false
    eventQueue := []
    reconnectTimers := 0 }

/-- emit: send immediately when the socket is OPEN; otherwise queue the
event unless manually disconnected, in which case drop it. -/
def emit (c : ClientState) (event : String) (data : Json) :
    ClientState × List Output :=
  if c.readyState ≠ .OPEN then
    if !c.isManuallyDisconnected then
      ({ c with eventQueue := c.eventQueue ++ [(event, data)] }, [])
    else (c, [])
  else (c, [.sentEvent event data])

/-- socket.close: no effect on an already CLOSED socket, otherwise the
socket moves to CLOSING; the close callback arrives later as an input. -/
def closeSocket (c : ClientState) : ClientState :=
  if c.readyState = .CLOSED then c else { c with readyState := .CLOSING }

/-- onRequest: registering a duplicate endpoint throws. -/
def onRequest (c : ClientState) (endpoint : String) :
    ClientState × List Output :=
  if endpoint ∈ c.requestHandlers then
    (c, [.threw "Endpoint is already registered."])
  else ({ c with requestHandlers := c.requestHandlers ++ [endpoint] }, [])

/-- enableServerRequests: the flag is set only when the socket URL uses
secure transport or the loopback host; that URL test is abstracted into
the boolean input. -/
def enableServerRequests (c : ClientState) (secureOrLocal : Bool) :
    ClientState × List Output :=
  if secureOrLocal then ({ c with allowServerRequests := true }, [])
  else (c, [])

/-- handleIncomingRequest: 404 response when no handler is registered,
otherwise the registered handler is invoked with a respond continuation. -/
def handleIncomingRequest (c : ClientState) (id : Nat) (endpoint : String)
    (data : Json) : ClientState × List Output :=
  if endpoint ∈ c.requestHandlers then
    (c, [.handlerInvoked id endpoint data])
  else
    (c, [.sentResponse id .null
          (some ⟨404, "No handler registered for endpoint: " ++ endpoint⟩)])

/-- handleIncomingResponse: when the identifier is pending, cancel the
deadline timer, remove the entry and settle the promise; a present error
rejects with code error.code or 500 when falsy and message error.message
or the fallback, otherwise resolve with the data. -/
def handleIncomingResponse (c : ClientState) (id : Nat) (data : Json)
    (error : Option Err) : ClientState × List Output :=
  if id ∈ c.pendingRequests then
    let c1 := { c with pendingRequests := c.pendingRequests.erase id }
    match error with
    | some e =>
        (c1, [.rejected id
               ⟨if e.code = 0 then 500 else e.code,
                if e.message.isEmpty then "Unknown Error" else e.message⟩])
    | none => (c1, [.resolved id data])
  else (c, [])

/-- tryReconnect: at or past the attempt limit, fire reconnect_failed
and stop; otherwise schedule a timer for the current delay.  The
doubling of the delay happens inside the timer callback. -/
def tryReconnect (c : ClientState) : ClientState × List Output :=
  if c.currentAttempt ≥ c.reconnectionAttempts then
    (c, [.notify "reconnect_failed" none])
  else
    ({ c with reconnectTimers := c.reconnectTimers + 1 },
     [.scheduledReconnect c.reconnectionDelay])

/-- One iteration of the forEach in flushEventQueue: emit the queued
event from the accumulated state and append its outputs. -/
def flushStep (a : ClientState × List Output) (ed : String × Json) :
    ClientState × List Output :=
  ((emit a.1 ed.1 ed.2).1, a.2 ++ (emit a.1 ed.1 ed.2).2)

/-- flushEventQueue: forEach over the queue calling emit, then reset the
queue to empty. -/
def flushEventQueue (c : ClientState) : ClientState × List Output :=
  let r := c.eventQueue.foldl flushStep (c, [])
  ({ r.1 with eventQueue := [] }, r.2)

/-- clearPendingRequests: reject every pending entry with the connection
closed error, cancelling its timer, then clear the table. -/
def clearPendingRequests (c : ClientState) : ClientState × List Output :=
  ({ c with pendingRequests := [] },
   c.pendingRequests.map fun id =>
     Output.rejected id ⟨503, "WebSocket connection closed"⟩)

/-- initializeSocket: a fresh WebSocket starts in the CONNECTING state. -/
def setupSocket (c : ClientState) : ClientState :=
  { c with readyState := .CONNECTING }

/-- reconnectResume: no effect when the socket is OPEN or CONNECTING,
otherwise create a fresh socket. -/
def reconnectResume (c : ClientState) : ClientState :=
  if c.readyState = .OPEN ∨ c.readyState = .CONNECTING then c
  else setupSocket c

/-- The setTimeout callback scheduled by tryReconnect: increment the
attempt count, resume, then double the delay capped at 30000.  A timer
fires only if it was scheduled and not yet consumed. -/
def fireReconnect (c : ClientState) : ClientState × List Output :=
  if c.reconnectTimers = 0 then (c, [])
  else
    let c1 := { c with reconnectTimers := c.reconnectTimers - 1,
                       currentAttempt := c.currentAttempt + 1 }
    let c2 := reconnectResume c1
    ({ c2 with reconnectionDelay := min 30000 (c2.reconnectionDelay * 2) }, [])

/-- disconnect: no-op unless the socket is OPEN or CONNECTING; otherwise
set the manual flag, disable reconnection, drop the queue and close the
socket. -/
def disconnect (c : ClientState) : ClientState × List Output :=
  if c.readyState ≠ .OPEN ∧ c.readyState ≠ .CONNECTING then (c, [])
  else
    (closeSocket { c with isManuallyDisconnected := true,
                          shouldReconnect := false, eventQueue := [] }, [])

/-- request: reject 400 immediately when manually disconnected, 503 when
the socket is not OPEN; otherwise issue a fresh identifier, arm its
deadline timer, record the pending entry and send the request frame.
The timeout duration flows only into the wall clock deadline, which the
model represents by the fireDeadline input. -/
def request (c : ClientState) (endpoint : String) (data : Json)
    (_timeoutDuration : Nat) : ClientState × List Output :=
  if c.isManuallyDisconnected then
    (c, [.rejectedImmediate ⟨400, "Connection manually disconnected"⟩])
  else if c.readyState ≠ .OPEN then
    (c, [.rejectedImmediate ⟨503, "WebSocket is not connected"⟩])
  else
    ({ c with nextId := c.nextId + 1,
              pendingRequests := c.pendingRequests ++ [c.nextId] },
     [.sentRequest c.nextId endpoint data])

/-- The deadline timer callback of a request: delete the entry and
reject with 408.  A timer whose identifier is no longer pending was
cancelled by clearTimeout and never fires. -/
def fireDeadline (c : ClientState) (id : Nat) : ClientState × List Output :=
  if id ∈ c.pendingRequests then
    ({ c with pendingRequests := c.pendingRequests.erase id },
     [.rejected id ⟨408, "Request timed out"⟩])
  else (c, [])

/-- The tail of the demultiplexer: the reserved handshake event fires the
connect notification, any other present event name is dispatched to its
handler, and an absent event name finds no handler. -/
def onMessageEvent (c : ClientState) (f : Frame) : ClientState × List Output :=
  match f.event with
  | some e =>
      if e = "__system_handshake_ack" then (c, [.notify "connect" none])
      else (c, [.notify e (some f.data)])
  | none => (c, [])

/-- The response branch of the demultiplexer: a response with a truthy
identifier and a truthy data or error field goes to the correlator. -/
def onMessageRest (c : ClientState) (f : Frame) : ClientState × List Output :=
  match f.response with
  | some ⟨some rid, rdata, rerr⟩ =>
      if rdata.truthy || rerr.isSome then handleIncomingResponse c rid rdata rerr
      else onMessageEvent c f
  | _ => onMessageEvent c f

/-- socket.onmessage after a successful parse: a request with truthy
identifier and endpoint goes to the gateway, gated by the authorization
flag; then responses, then events. -/
def onMessage (c : ClientState) (f : Frame) : ClientState × List Output :=
  match f.request with
  | some ⟨some rid, some ep, rdata⟩ =>
      if ep.isEmpty then onMessageRest c f
      else if !c.allowServerRequests then (c, [])
      else handleIncomingRequest c rid ep rdata
  | _ => onMessageRest c f

/-- socket.onclose: the socket is now CLOSED; fire the disconnect
notification, clear the pending requests, and when neither manually
disconnected nor reconnection disabled, run tryReconnect. -/
def onClose (c : ClientState) : ClientState × List Output :=
  let r1 := clearPendingRequests { c with readyState := .CLOSED }
  if !r1.1.isManuallyDisconnected && r1.1.shouldReconnect then
    let r2 := tryReconnect r1.1
    (r2.1, Output.notify "disconnect" none :: (r1.2 ++ r2.2))
  else (r1.1, Output.notify "disconnect" none :: r1.2)

/-- socket.onopen: the socket is now OPEN; when the attempt count is
positive fire the reconnect notification, with no argument, then reset
the attempt count, the reconnection flags and the delay, and flush the
event queue. -/
def onOpen (c : ClientState) : ClientState × List Output :=
  let o1 : List Output :=
    if 0 < c.currentAttempt then [Output.notify "reconnect" none] else []
  let r := flushEventQueue
    { c with readyState := .OPEN, currentAttempt := 0, shouldReconnect := true,
             isManuallyDisconnected := false, reconnectionDelay := 1000 }
  (r.1, o1 ++ r.2)

/-- Inputs: public method calls, socket callbacks and timer firings.
Socket callbacks carry their WebSocket firing conditions: open fires
only on a CONNECTING socket, close only on a socket that is not already
CLOSED. -/
inductive Input where
  | emitCall (event : String) (data : Json)
  | requestCall (endpoint : String) (data : Json) (timeoutDuration : Nat)
  | onRequestCall (endpoint : String)
  | enableSrv (secureOrLocal : Bool)
  | disableSrv
  | closeCall
  | disconnectCall
  | resumeCall
  | message (f : Frame)
  | parseFailure
  | socketOpen
  | socketClose
  | fireDeadline (id : Nat)
  | fireReconnect
deriving DecidableEq

/-- One run to completion turn of the client. -/
def step (c : ClientState) : Input → ClientState × List Output
  | .emitCall e d => emit c e d
  | .requestCall ep d t => request c ep d t
  | .onRequestCall ep => onRequest c ep
  | .enableSrv sec => enableServerRequests c sec
  | .disableSrv => ({ c with allowServerRequests := false }, [])
  | .closeCall => (closeSocket c, [])
  | .disconnectCall => disconnect c
  | .resumeCall => (reconnectResume c, [])
  | .message f => onMessage c f
  | .parseFailure => (c, [])
  | .socketOpen => if c.readyState = .CONNECTING then onOpen c else (c, [])
  | .socketClose => if c.readyState = .CLOSED then (c, []) else onClose c
  | .fireDeadline id => fireDeadline c id
  | .fireReconnect => fireReconnect c

/-- Run a list of inputs, accumulating the outputs in order. -/
def run (c : ClientState) : List Input → ClientState × List Output
  | [] => (c, [])
  | i :: is =>
      ((run (step c i).1 is).1, (step c i).2 ++ (run (step c i).1 is).2)

/-- Whether an output settles the promise of the given identifier. -/
def isSettleOf (id : Nat) : Output → Bool
  | .resolved j _ => j == id
  | .rejected j _ => j == id
  | _ => false

/-- How many outputs of the list settle the given identifier. -/
def settleCount (outs : List Output) (id : Nat) : Nat :=
  match outs with
  | [] => 0
  | o :: rest => (if isSettleOf id o then 1 else 0) + settleCount rest id

/-- The delays of the reconnection timers scheduled in an output list. -/
def scheduledDelays (outs : List Output) : List Nat :=
  outs.filterMap fun o =>
    match o with
    | .scheduledReconnect d => some d
    | _ => none

/-- Whether an output is a fire-and-forget event sent to the transport. -/
def isSentEvent : Output → Bool
  | .sentEvent _ _ => true
  | _ => false

/-- Whether an output is a promise settlement at all. -/
def Output.settles : Output → Bool
  | .resolved _ _ => true
  | .rejected _ _ => true
  | _ => false

/-- The settlement invariant tying a reachable client state to the
outputs produced so far: pending identifiers are distinct, below the
counter and unsettled; identifiers never issued are unsettled; no
identifier is settled twice; a CLOSED socket has no pending entries. -/
def Inv (c : ClientState) (outs : List Output) : Prop :=
  c.pendingRequests.Nodup ∧
  (∀ id ∈ c.pendingRequests, id < c.nextId) ∧
  (∀ id ∈ c.pendingRequests, settleCount outs id = 0) ∧
  (∀ id, c.nextId ≤ id → settleCount outs id = 0) ∧
  (∀ id, settleCount outs id ≤ 1) ∧
  (c.readyState = .CLOSED → c.pendingRequests = [])

/-- The wait before reconnection attempt i + 1 as the code computes it:
the configured base delay first, then the doubled delay capped at the
hardcoded 30000. -/
def codeBackoffWait (B : Nat) : Nat → Nat
  | 0 => B
  | i + 1 => min 30000 (B * 2 ^ (i + 1))

/-- Modelled from the spec: the wait before reconnection attempt i + 1
as the specification states it, the doubled base capped at the
configured maxDelayMs.  Used only to compare the claimed backoff
sequence with the one the code produces. -/
def specBackoffWait (B M : Nat) : Nat → Nat
  | 0 => B
  | i + 1 => min (B * 2 ^ (i + 1)) M

/-- A run of k consecutive failed automatic reconnection cycles: each
close event is followed by the scheduled timer firing and the fresh
socket failing again. -/
def failCycles : Nat → List Input
  | 0 => []
  | k + 1 => failCycles k ++ [Input.socketClose, Input.fireReconnect]

/-- Default construction options: every optional field absent. -/
def defaultOptions : Options := ⟨none, none, none⟩

/-- A concrete run used as a witness: the socket opens, one request is
issued, then the matching response arrives twice. -/
def c1Trace : List Input :=
  [.socketOpen, .requestCall "get" .null 300000,
   .message ⟨none, .null, none, some ⟨some 0, .num 7, none⟩⟩,
   .message ⟨none, .null, none, some ⟨some 0, .num 7, none⟩⟩]

/-- A concrete run used as a witness: the socket opens and one request
is issued, which then stays pending. -/
def c2Trace : List Input :=
  [.socketOpen, .requestCall "get" .null 300000]

end Recket

namespace Recket

/-! ### Settlement counts and runs -/

theorem settleCount_append (a b : List Output) (id : Nat) :
    settleCount (a ++ b) id = settleCount a id + settleCount b id := by
  induction a with
  | nil => simp [settleCount]
  | cons x xs ih => simp [settleCount, ih, Nat.add_assoc]

theorem isSettleOf_eq_false {o : Output} (h : o.settles = false) (id : Nat) :
    isSettleOf id o = false := by
  cases o <;> simp_all [Output.settles, isSettleOf]

theorem settleCount_of_no_settles {os : List Output}
    (h : ∀ o ∈ os, o.settles = false) (id : Nat) : settleCount os id = 0 := by
  induction os with
  | nil => rfl
  | cons o t ih =>
      simp [settleCount, isSettleOf_eq_false (h o (by simp)) id,
        ih fun x hx => h x (by simp [hx])]

theorem run_append (c : ClientState) (a b : List Input) :
    run c (a ++ b)
      = ((run (run c a).1 b).1, (run c a).2 ++ (run (run c a).1 b).2) := by
  induction a generalizing c with
  | nil => simp [run]
  | cons i t ih => simp [run, ih, List.append_assoc]

/-! ### The settlement invariant -/

/-- A step that leaves the pending table and the identifier counter
untouched and settles nothing preserves the invariant. -/
theorem inv_preserve {c c' : ClientState} {outs os : List Output}
    (h : Inv c outs)
    (hp : c'.pendingRequests = c.pendingRequests)
    (hn : c'.nextId = c.nextId)
    (hr : c'.readyState = ReadyState.CLOSED → c.pendingRequests = [])
    (ho : ∀ id, settleCount os id = 0) :
    Inv c' (outs ++ os) := by
  obtain ⟨h1, h2, h3, h4, h5, h6⟩ := h
  refine ⟨hp ▸ h1, ?_, ?_, ?_, ?_, ?_⟩
  · intro id hid; rw [hn]; exact h2 id (hp ▸ hid)
  · intro id hid; rw [settleCount_append, h3 id (hp ▸ hid), ho]
  · intro id hid; rw [settleCount_append, h4 id (hn ▸ hid), ho]
  · intro id; rw [settleCount_append, ho]; simpa using h5 id
  · intro hcl; rw [hp]; exact hr hcl

/-- A step that settles one pending identifier exactly once and erases
it from the table preserves the invariant. -/
theorem inv_settle {c : ClientState} {outs : List Output} (h : Inv c outs)
    {id : Nat} (hid : id ∈ c.pendingRequests) {os : List Output}
    (hos : ∀ j, settleCount os j = if j = id then 1 else 0) :
    Inv { c with pendingRequests := c.pendingRequests.erase id }
        (outs ++ os) := by
  obtain ⟨h1, h2, h3, h4, h5, h6⟩ := h
  refine ⟨?_, ?_, ?_, ?_, ?_, ?_⟩
  · exact List.Nodup.sublist (List.erase_sublist _ _) h1
  · intro j hj; exact h2 j (List.mem_of_mem_erase hj)
  · intro j hj
    have hji : j ≠ id := ((List.Nodup.mem_erase_iff h1).mp hj).1
    rw [settleCount_append, h3 j (List.mem_of_mem_erase hj), hos j, if_neg hji]
  · intro j hjn
    have hjn' : c.nextId ≤ j := hjn
    have hb : id < c.nextId := h2 id hid
    have hji : j ≠ id := by omega
    rw [settleCount_append, h4 j hjn', hos j, if_neg hji]
  · intro j
    by_cases hji : j = id
    · subst hji
      rw [settleCount_append, h3 j hid, hos j, if_pos rfl]
    · rw [settleCount_append, hos j, if_neg hji]
      simpa using h5 j
  · intro hcl
    have hnil : c.pendingRequests = [] := h6 hcl
    simp [hnil]

/-- Rejecting each element of a duplicate free identifier list settles
each member exactly once and nothing else. -/
theorem settleCount_rejectAll (l : List Nat) (hl : l.Nodup) (e : Err) (id : Nat) :
    settleCount (l.map fun j => Output.rejected j e) id
      = if id ∈ l then 1 else 0 := by
  induction l with
  | nil => simp [settleCount]
  | cons a t ih =>
      obtain ⟨ha, ht⟩ := List.nodup_cons.mp hl
      by_cases hai : a = id
      · subst hai
        simp [settleCount, isSettleOf, ih ht, ha]
      · simp [settleCount, isSettleOf, hai, ih ht, Ne.symm hai]

/-- Core of the close path: the table is emptied and every formerly
pending identifier is settled exactly once. -/
theorem inv_close_core {c : ClientState} {outs : List Output}
    (h : Inv c outs) (tail : List Output)
    (htail : ∀ o ∈ tail, Output.settles o = false)
    (c' : ClientState)
    (hp : c'.pendingRequests = [])
    (hn : c'.nextId = c.nextId) :
    Inv c' (outs ++ (Output.notify "disconnect" none ::
      ((c.pendingRequests.map fun id =>
          Output.rejected id ⟨503, "WebSocket connection closed"⟩) ++ tail))) := by
  obtain ⟨h1, h2, h3, h4, h5, h6⟩ := h
  have hce : ∀ j, settleCount (Output.notify "disconnect" none ::
      ((c.pendingRequests.map fun id =>
          Output.rejected id ⟨503, "WebSocket connection closed"⟩) ++ tail)) j
      = if j ∈ c.pendingRequests then 1 else 0 := by
    intro j
    simp only [settleCount, settleCount_append]
    rw [settleCount_rejectAll _ h1, settleCount_of_no_settles htail]
    simp [isSettleOf]
  refine ⟨by simp [hp], by simp [hp], by simp [hp], ?_, ?_, fun _ => hp⟩
  · intro j hjn
    rw [settleCount_append, h4 j (hn ▸ hjn), hce j, if_neg]
    intro hmem
    have := h2 j hmem
    rw [hn] at hjn
    omega
  · intro j
    rw [settleCount_append, hce j]
    by_cases hm : j ∈ c.pendingRequests
    · rw [if_pos hm, h3 j hm]
    · rw [if_neg hm]; simpa using h5 j

end Recket

namespace Recket

/-! ### Per step preservation of the invariant -/

theorem settleCount_singleton_zero {o : Output} (h : o.settles = false) :
    ∀ id, settleCount [o] id = 0 := by
  intro id
  simp [settleCount, isSettleOf_eq_false h]

theorem flushEventQueue_open {c : ClientState}
    (h : c.readyState = ReadyState.OPEN) :
    flushEventQueue c
      = ({ c with eventQueue := [] },
         c.eventQueue.map fun ed => Output.sentEvent ed.1 ed.2) := by
  have aux : ∀ (q : List (String × Json)) (c0 : ClientState) (acc : List Output),
      c0.readyState = ReadyState.OPEN →
      q.foldl flushStep (c0, acc)
        = (c0, acc ++ q.map fun ed => Output.sentEvent ed.1 ed.2) := by
    intro q
    induction q with
    | nil => intro c0 acc h0; simp
    | cons ed t ih =>
        intro c0 acc h0
        have he : emit c0 ed.1 ed.2 = (c0, [Output.sentEvent ed.1 ed.2]) := by
          simp [emit, h0]
        simp only [List.foldl_cons, flushStep, he]
        rw [ih c0 _ h0]
        simp
  simp only [flushEventQueue]
  rw [aux _ _ _ h]
  simp

theorem inv_emit {c : ClientState} {outs : List Output} (h : Inv c outs)
    (e : String) (d : Json) :
    Inv (emit c e d).1 (outs ++ (emit c e d).2) := by
  have h6 := h.2.2.2.2.2
  unfold emit
  split
  · split
    · exact inv_preserve h rfl rfl h6 fun id => rfl
    · exact inv_preserve h rfl rfl h6 fun id => rfl
  · exact inv_preserve h rfl rfl h6 fun id => rfl

theorem inv_request {c : ClientState} {outs : List Output} (h : Inv c outs)
    (ep : String) (d : Json) (t : Nat) :
    Inv (request c ep d t).1 (outs ++ (request c ep d t).2) := by
  have h6 := h.2.2.2.2.2
  unfold request
  split
  · exact inv_preserve h rfl rfl h6 fun id => rfl
  · split
    · exact inv_preserve h rfl rfl h6 fun id => rfl
    · rename_i hm hro
      have hopen : c.readyState = ReadyState.OPEN := by
        by_contra hne
        exact hro hne
      obtain ⟨h1, h2, h3, h4, h5, hc6⟩ := h
      refine ⟨?_, ?_, ?_, ?_, ?_, ?_⟩
      · show (c.pendingRequests ++ [c.nextId]).Nodup
        rw [List.nodup_append]
        refine ⟨h1, List.nodup_singleton _, ?_⟩
        intro a ha hb
        rw [List.mem_singleton] at hb
        subst hb
        exact absurd (h2 _ ha) (by omega)
      · intro id hid
        show id < c.nextId + 1
        rcases List.mem_append.mp hid with hl | hr
        · have := h2 id hl; omega
        · rw [List.mem_singleton] at hr; omega
      · intro id hid
        have hz : settleCount [Output.sentRequest c.nextId ep d] id = 0 := rfl
        rw [settleCount_append, hz]
        rcases List.mem_append.mp hid with hl | hr
        · rw [h3 id hl]
        · rw [List.mem_singleton] at hr
          subst hr
          rw [h4 _ (le_refl _)]
      · intro id hid
        have hge : c.nextId ≤ id := by
          have h1' : c.nextId + 1 ≤ id := hid
          omega
        have hz : settleCount [Output.sentRequest c.nextId ep d] id = 0 := rfl
        rw [settleCount_append, hz, h4 id hge]
      · intro id
        have hz : settleCount [Output.sentRequest c.nextId ep d] id = 0 := rfl
        rw [settleCount_append, hz]
        simpa using h5 id
      · intro hcl
        have : c.readyState = ReadyState.CLOSED := hcl
        rw [hopen] at this
        exact nomatch this

theorem inv_handleIncomingResponse {c : ClientState} {outs : List Output}
    (h : Inv c outs) (id : Nat) (data : Json) (err : Option Err) :
    Inv (handleIncomingResponse c id data err).1
        (outs ++ (handleIncomingResponse c id data err).2) := by
  have h6 := h.2.2.2.2.2
  unfold handleIncomingResponse
  split
  · rename_i hid
    cases err with
    | some e =>
        apply inv_settle h hid
        intro j
        by_cases hji : j = id
        · subst hji; simp [settleCount, isSettleOf]
        · simp [settleCount, isSettleOf, hji, Ne.symm hji]
    | none =>
        apply inv_settle h hid
        intro j
        by_cases hji : j = id
        · subst hji; simp [settleCount, isSettleOf]
        · simp [settleCount, isSettleOf, hji, Ne.symm hji]
  · exact inv_preserve h rfl rfl h6 fun id => rfl

theorem inv_fireDeadline {c : ClientState} {outs : List Output}
    (h : Inv c outs) (id : Nat) :
    Inv (fireDeadline c id).1 (outs ++ (fireDeadline c id).2) := by
  have h6 := h.2.2.2.2.2
  unfold fireDeadline
  split
  · rename_i hid
    apply inv_settle h hid
    intro j
    by_cases hji : j = id
    · subst hji; simp [settleCount, isSettleOf]
    · simp [settleCount, isSettleOf, hji, Ne.symm hji]
  · exact inv_preserve h rfl rfl h6 fun id => rfl

theorem inv_onMessageEvent {c : ClientState} {outs : List Output}
    (h : Inv c outs) (f : Frame) :
    Inv (onMessageEvent c f).1 (outs ++ (onMessageEvent c f).2) := by
  have h6 := h.2.2.2.2.2
  obtain ⟨ev, da, req, resp⟩ := f
  cases ev with
  | none => exact inv_preserve h rfl rfl h6 fun id => rfl
  | some e =>
      by_cases he : e = "__system_handshake_ack"
      · have hred : onMessageEvent c ⟨some e, da, req, resp⟩
            = (c, [Output.notify "connect" none]) := by
          simp [onMessageEvent, he]
        rw [hred]
        exact inv_preserve h rfl rfl h6 fun id => rfl
      · have hred : onMessageEvent c ⟨some e, da, req, resp⟩
            = (c, [Output.notify e (some da)]) := by
          simp [onMessageEvent, he]
        rw [hred]
        exact inv_preserve h rfl rfl h6 fun id => rfl

theorem inv_onMessageRest {c : ClientState} {outs : List Output}
    (h : Inv c outs) (f : Frame) :
    Inv (onMessageRest c f).1 (outs ++ (onMessageRest c f).2) := by
  obtain ⟨ev, da, req, resp⟩ := f
  cases resp with
  | none => exact inv_onMessageEvent h _
  | some rp =>
      obtain ⟨rid0, rdata, rerr⟩ := rp
      cases rid0 with
      | none => exact inv_onMessageEvent h _
      | some rid =>
          by_cases hg : (rdata.truthy || rerr.isSome) = true
          · have hred : onMessageRest c ⟨ev, da, req, some ⟨some rid, rdata, rerr⟩⟩
                = handleIncomingResponse c rid rdata rerr := by
              simp [onMessageRest, hg]
            rw [hred]
            exact inv_handleIncomingResponse h rid rdata rerr
          · have hred : onMessageRest c ⟨ev, da, req, some ⟨some rid, rdata, rerr⟩⟩
                = onMessageEvent c ⟨ev, da, req, some ⟨some rid, rdata, rerr⟩⟩ := by
              simp [onMessageRest, hg]
            rw [hred]
            exact inv_onMessageEvent h _

theorem inv_onMessage {c : ClientState} {outs : List Output} (h : Inv c outs)
    (f : Frame) :
    Inv (onMessage c f).1 (outs ++ (onMessage c f).2) := by
  have h6 := h.2.2.2.2.2
  obtain ⟨ev, da, req, resp⟩ := f
  cases req with
  | none => exact inv_onMessageRest h _
  | some r =>
      obtain ⟨rid0, ep0, rdata⟩ := r
      cases rid0 with
      | none => exact inv_onMessageRest h _
      | some rid =>
          cases ep0 with
          | none => exact inv_onMessageRest h _
          | some ep =>
              by_cases hep : ep.isEmpty = true
              · have hred : onMessage c ⟨ev, da, some ⟨some rid, some ep, rdata⟩, resp⟩
                    = onMessageRest c ⟨ev, da, some ⟨some rid, some ep, rdata⟩, resp⟩ := by
                  simp [onMessage, hep]
                rw [hred]
                exact inv_onMessageRest h _
              · cases hal : c.allowServerRequests with
                | false =>
                    have hred : onMessage c ⟨ev, da, some ⟨some rid, some ep, rdata⟩, resp⟩
                        = (c, []) := by
                      simp [onMessage, hep, hal]
                    rw [hred]
                    exact inv_preserve h rfl rfl h6 fun id => rfl
                | true =>
                    have hred : onMessage c ⟨ev, da, some ⟨some rid, some ep, rdata⟩, resp⟩
                        = handleIncomingRequest c rid ep rdata := by
                      simp [onMessage, hep, hal]
                    rw [hred]
                    unfold handleIncomingRequest
                    split
                    · exact inv_preserve h rfl rfl h6 fun id => rfl
                    · exact inv_preserve h rfl rfl h6 fun id => rfl

theorem inv_onClose {c : ClientState} {outs : List Output} (h : Inv c outs) :
    Inv (onClose c).1 (outs ++ (onClose c).2) := by
  simp only [onClose, clearPendingRequests, tryReconnect]
  split
  · split
    · exact inv_close_core h [Output.notify "reconnect_failed" none]
        (by intro o ho; rw [List.mem_singleton] at ho; subst ho; rfl)
        { c with readyState := .CLOSED, pendingRequests := [] } rfl rfl
    · exact inv_close_core h [Output.scheduledReconnect c.reconnectionDelay]
        (by intro o ho; rw [List.mem_singleton] at ho; subst ho; rfl)
        { c with readyState := .CLOSED, pendingRequests := [],
                 reconnectTimers := c.reconnectTimers + 1 } rfl rfl
  · simpa using inv_close_core h [] (by simp)
      { c with readyState := .CLOSED, pendingRequests := [] } rfl rfl

theorem inv_onOpen {c : ClientState} {outs : List Output} (h : Inv c outs) :
    Inv (onOpen c).1 (outs ++ (onOpen c).2) := by
  simp only [onOpen]
  rw [flushEventQueue_open rfl]
  refine inv_preserve h rfl rfl (fun hcl => nomatch hcl) ?_
  intro id
  apply settleCount_of_no_settles
  intro o ho
  rcases List.mem_append.mp ho with h1 | h1
  · by_cases hca : 0 < c.currentAttempt
    · rw [if_pos hca] at h1
      rw [List.mem_singleton] at h1
      subst h1; rfl
    · rw [if_neg hca] at h1
      cases h1
  · obtain ⟨ed, hed, rfl⟩ := List.mem_map.mp h1
    rfl

theorem inv_fireReconnect {c : ClientState} {outs : List Output}
    (h : Inv c outs) :
    Inv (fireReconnect c).1 (outs ++ (fireReconnect c).2) := by
  have h6 := h.2.2.2.2.2
  simp only [fireReconnect, reconnectResume, setupSocket]
  split
  · exact inv_preserve h rfl rfl h6 fun id => rfl
  · split
    · exact inv_preserve h rfl rfl (fun hcl => h6 hcl) fun id => rfl
    · exact inv_preserve h rfl rfl (fun hcl => nomatch hcl) fun id => rfl

theorem inv_step {c : ClientState} {outs : List Output} (h : Inv c outs)
    (i : Input) : Inv (step c i).1 (outs ++ (step c i).2) := by
  have h6 := h.2.2.2.2.2
  cases i with
  | emitCall e d => exact inv_emit h e d
  | requestCall ep d t => exact inv_request h ep d t
  | onRequestCall ep =>
      simp only [step, onRequest]
      split
      · exact inv_preserve h rfl rfl h6 fun id => rfl
      · exact inv_preserve h rfl rfl h6 fun id => rfl
  | enableSrv sec =>
      simp only [step, enableServerRequests]
      split
      · exact inv_preserve h rfl rfl h6 fun id => rfl
      · exact inv_preserve h rfl rfl h6 fun id => rfl
  | disableSrv =>
      simp only [step]
      exact inv_preserve h rfl rfl h6 fun id => rfl
  | closeCall =>
      simp only [step, closeSocket]
      split
      · exact inv_preserve h rfl rfl h6 fun id => rfl
      · exact inv_preserve h rfl rfl (fun hcl => nomatch hcl) fun id => rfl
  | disconnectCall =>
      simp only [step, disconnect, closeSocket]
      split
      · exact inv_preserve h rfl rfl h6 fun id => rfl
      · split
        · rename_i hcl
          exact inv_preserve h rfl rfl (fun _ => h6 hcl) fun id => rfl
        · exact inv_preserve h rfl rfl (fun hcl => nomatch hcl) fun id => rfl
  | resumeCall =>
      simp only [step, reconnectResume, setupSocket]
      split
      · exact inv_preserve h rfl rfl h6 fun id => rfl
      · exact inv_preserve h rfl rfl (fun hcl => nomatch hcl) fun id => rfl
  | message f => exact inv_onMessage h f
  | parseFailure =>
      simp only [step]
      exact inv_preserve h rfl rfl h6 fun id => rfl
  | socketOpen =>
      simp only [step]
      split
      · exact inv_onOpen h
      · exact inv_preserve h rfl rfl h6 fun id => rfl
  | socketClose =>
      simp only [step]
      split
      · exact inv_preserve h rfl rfl h6 fun id => rfl
      · exact inv_onClose h
  | fireDeadline id => exact inv_fireDeadline h id
  | fireReconnect => exact inv_fireReconnect h

theorem run_inv {c : ClientState} {outs : List Output} (h : Inv c outs)
    (is : List Input) : Inv (run c is).1 (outs ++ (run c is).2) := by
  induction is generalizing c outs with
  | nil => simpa [run] using h
  | cons i t ih =>
      have h1 := inv_step h i
      have h2 := ih h1
      simpa [run, List.append_assoc] using h2

theorem inv_mkClient (o : Options) : Inv (mkClient o) [] := by
  refine ⟨List.nodup_nil, ?_, ?_, ?_, ?_, ?_⟩
  · intro id hid
    exact absurd hid (by simp [mkClient])
  · intro id hid
    exact absurd hid (by simp [mkClient])
  · intro id hid
    rfl
  · intro id
    exact Nat.zero_le _
  · intro hcl
    rfl

end Recket

namespace Recket

/-! ### The close path in isolation -/

theorem onClose_pending (c : ClientState) :
    (onClose c).1.pendingRequests = [] := by
  simp only [onClose, clearPendingRequests, tryReconnect]
  split
  · split <;> rfl
  · rfl

theorem onClose_outputs (c : ClientState) :
    ∃ tail, (∀ o ∈ tail, Output.settles o = false) ∧
      (onClose c).2 = Output.notify "disconnect" none ::
        ((c.pendingRequests.map fun id =>
            Output.rejected id ⟨503, "WebSocket connection closed"⟩) ++ tail) := by
  simp only [onClose, clearPendingRequests, tryReconnect]
  split
  · split
    · refine ⟨[Output.notify "reconnect_failed" none], ?_, rfl⟩
      intro o ho; rw [List.mem_singleton] at ho; subst ho; rfl
    · refine ⟨[Output.scheduledReconnect c.reconnectionDelay], ?_, rfl⟩
      intro o ho; rw [List.mem_singleton] at ho; subst ho; rfl
  · exact ⟨[], by simp, by simp⟩

theorem filter_rejectAll (l : List Nat) (hl : l.Nodup) (e : Err) (id : Nat) :
    ((l.map fun j => Output.rejected j e).filter
        fun x => x == Output.rejected id e).length
      = if id ∈ l then 1 else 0 := by
  induction l with
  | nil => simp
  | cons a t ih =>
      obtain ⟨ha, ht⟩ := List.nodup_cons.mp hl
      by_cases hai : a = id
      · subst hai
        simp [List.filter_cons, ih ht, ha]
      · simp [List.filter_cons, ih ht, hai, Ne.symm hai]

theorem filter_no_settles {tail : List Output}
    (h : ∀ o ∈ tail, Output.settles o = false) (id : Nat) (e : Err) :
    tail.filter (fun x => x == Output.rejected id e) = [] := by
  induction tail with
  | nil => rfl
  | cons o t ih =>
      have ho := h o (by simp)
      have hne : (o == Output.rejected id e) = false := by
        cases o <;> simp_all [Output.settles, beq_eq_false_iff_ne]
      simp [List.filter_cons, hne, ih fun x hx => h x (by simp [hx])]

/-! ### Claims C1, C2, C3 -/

/-- C1: over any run of the client, every identifier issued by request
is settled at most once, so a matching response, a later duplicate
frame, a deadline firing or a channel close never settles the same
identifier twice; moreover an identifier still in the pending table is
as yet unsettled, so a settlement always coincides with its removal
from the table. -/
theorem c1_settled_at_most_once (o : Options) (is : List Input) (id : Nat) :
    settleCount (run (mkClient o) is).2 id ≤ 1 ∧
    (id ∈ (run (mkClient o) is).1.pendingRequests →
       settleCount (run (mkClient o) is).2 id = 0) := by
  have h := run_inv (inv_mkClient o) is
  rw [List.nil_append] at h
  exact ⟨h.2.2.2.2.1 id, fun hm => h.2.2.1 id hm⟩

/-- Witness for C1: a run in which a request is answered twice settles
its identifier at most once. -/
theorem c1_settled_at_most_once_witness :
    settleCount (run (mkClient defaultOptions) c1Trace).2 0 ≤ 1 :=
  (c1_settled_at_most_once defaultOptions c1Trace 0).1

/-- C2: closing the transport rejects every request pending at that
moment with the connection closed error, code 503, exactly once,
empties the pending table, and cancels the deadline timers, so any
deadline firing afterwards is a complete no-op. -/
theorem c2_close_rejects_all_pending (o : Options) (is : List Input) :
    (step (run (mkClient o) is).1 .socketClose).1.pendingRequests = [] ∧
    (∀ id ∈ (run (mkClient o) is).1.pendingRequests,
       ((step (run (mkClient o) is).1 .socketClose).2.filter
           fun x => x == Output.rejected id ⟨503, "WebSocket connection closed"⟩).length
         = 1) ∧
    (∀ id, step (step (run (mkClient o) is).1 .socketClose).1 (.fireDeadline id)
        = ((step (run (mkClient o) is).1 .socketClose).1, [])) := by
  have hInv := run_inv (inv_mkClient o) is
  rw [List.nil_append] at hInv
  have hnd : (run (mkClient o) is).1.pendingRequests.Nodup := hInv.1
  have h6 := hInv.2.2.2.2.2
  by_cases hcl : (run (mkClient o) is).1.readyState = ReadyState.CLOSED
  · have hnil := h6 hcl
    have hstep : step (run (mkClient o) is).1 .socketClose
        = ((run (mkClient o) is).1, []) := by
      simp [step, hcl]
    rw [hstep]
    refine ⟨hnil, ?_, ?_⟩
    · intro id hid
      rw [hnil] at hid
      cases hid
    · intro id
      simp [step, fireDeadline, hnil]
  · have hstep : step (run (mkClient o) is).1 .socketClose
        = onClose (run (mkClient o) is).1 := by
      simp [step, hcl]
    rw [hstep]
    obtain ⟨tail, htail, hout⟩ := onClose_outputs (run (mkClient o) is).1
    refine ⟨onClose_pending _, ?_, ?_⟩
    · intro id hid
      have h1 : (Output.notify "disconnect" none
          == Output.rejected id ⟨503, "WebSocket connection closed"⟩) = false := rfl
      rw [hout]
      simp only [List.filter_cons, h1, Bool.false_eq_true, if_false,
        List.filter_append, filter_no_settles htail, List.append_nil]
      rw [filter_rejectAll _ hnd]
      simp [hid]
    · intro id
      have hp := onClose_pending (run (mkClient o) is).1
      simp [step, fireDeadline, hp]

/-- Witness for C2: after an open and one still pending request, the
close event rejects identifier 0 with code 503 exactly once. -/
theorem c2_close_rejects_all_pending_witness :
    ((step (run (mkClient defaultOptions) c2Trace).1 .socketClose).2.filter
        fun x => x == Output.rejected 0 ⟨503, "WebSocket connection closed"⟩).length
      = 1 :=
  (c2_close_rejects_all_pending defaultOptions c2Trace).2.1 0 (by decide)

/-- C3: a request call made while manually disconnected rejects
immediately with code 400, and one made while not manually disconnected
but with the channel not open rejects immediately with code 503; in
both cases the state is unchanged, so no frame is sent and no pending
entry or deadline timer is created. -/
theorem c3_request_rejects_immediately (c : ClientState) (ep : String)
    (d : Json) (t : Nat) :
    (c.isManuallyDisconnected = true →
       step c (.requestCall ep d t)
         = (c, [Output.rejectedImmediate ⟨400, "Connection manually disconnected"⟩])) ∧
    (c.isManuallyDisconnected = false → c.readyState ≠ ReadyState.OPEN →
       step c (.requestCall ep d t)
         = (c, [Output.rejectedImmediate ⟨503, "WebSocket is not connected"⟩])) := by
  constructor
  · intro hm
    simp [step, request, hm]
  · intro hm hro
    simp [step, request, hm, hro]

/-- Witness for C3: a freshly constructed client is still CONNECTING,
so a request rejects with 503 and the state is unchanged. -/
theorem c3_request_rejects_immediately_witness :
    step (mkClient defaultOptions) (.requestCall "get" .null 300000)
      = (mkClient defaultOptions,
         [Output.rejectedImmediate ⟨503, "WebSocket is not connected"⟩]) :=
  (c3_request_rejects_immediately (mkClient defaultOptions) "get" .null 300000).2
    rfl (by decide)

end Recket

namespace Recket

/-! ### Claims C6, C7, C8, C9 -/

/-- C6: an event emitted while the channel is not open and the
connection is not manually disconnected is appended to the event queue
with no output and no error, and the open transition sends every queued
event to the transport in queue order, after only the possible
reconnect notification of that same transition, leaving the queue
empty. -/
theorem c6_queue_then_flush_in_order (c : ClientState) (e : String) (d : Json) :
    (c.readyState ≠ ReadyState.OPEN → c.isManuallyDisconnected = false →
       step c (.emitCall e d)
         = ({ c with eventQueue := c.eventQueue ++ [(e, d)] }, [])) ∧
    (c.readyState = ReadyState.CONNECTING →
       (step c .socketOpen).2
           = (if 0 < c.currentAttempt then [Output.notify "reconnect" none] else [])
               ++ c.eventQueue.map (fun ed => Output.sentEvent ed.1 ed.2) ∧
       (step c .socketOpen).1.eventQueue = []) := by
  constructor
  · intro hro hm
    simp [step, emit, hro, hm]
  · intro hc
    have hstep : step c .socketOpen = onOpen c := by simp [step, hc]
    rw [hstep]
    simp only [onOpen]
    rw [flushEventQueue_open rfl]
    exact ⟨rfl, rfl⟩

/-- Witness for C6: a CONNECTING client queues an emit silently, and a
CONNECTING client with one queued event flushes it on open. -/
theorem c6_queue_then_flush_in_order_witness :
    step (mkClient defaultOptions) (.emitCall "a" (.num 1))
        = ({ mkClient defaultOptions with eventQueue := [("a", .num 1)] }, []) ∧
    (step { mkClient defaultOptions with eventQueue := [("a", .num 1)] }
        .socketOpen).2
      = [Output.sentEvent "a" (.num 1)] := by
  constructor
  · exact (c6_queue_then_flush_in_order (mkClient defaultOptions) "a" (.num 1)).1
      (by decide) rfl
  · have h := (c6_queue_then_flush_in_order
      { mkClient defaultOptions with eventQueue := [("a", .num 1)] } "a" (.num 1)).2 rfl
    rw [h.1]
    rfl

/-- C7: disconnect is a no-op when the socket is neither OPEN nor
CONNECTING; otherwise it sets the manual flag, disables reconnection,
clears the event queue and closes the socket; and while manually
disconnected with the channel not open, an emit does nothing at all, so
an event emitted in that window is never sent, even after a later
successful reconnection. -/
theorem c7_disconnect_clears_queue (c : ClientState) (e : String) (d : Json) :
    (c.readyState ≠ ReadyState.OPEN → c.readyState ≠ ReadyState.CONNECTING →
       step c .disconnectCall = (c, [])) ∧
    (c.readyState = ReadyState.OPEN ∨ c.readyState = ReadyState.CONNECTING →
       step c .disconnectCall
         = ({ c with readyState := .CLOSING, isManuallyDisconnected := true,
                     shouldReconnect := false, eventQueue := [] }, [])) ∧
    (c.isManuallyDisconnected = true → c.readyState ≠ ReadyState.OPEN →
       step c (.emitCall e d) = (c, [])) := by
  refine ⟨?_, ?_, ?_⟩
  · intro h1 h2
    simp [step, disconnect, h1, h2]
  · intro hor
    have hno : ¬(c.readyState ≠ ReadyState.OPEN ∧ c.readyState ≠ ReadyState.CONNECTING) := by
      rcases hor with h | h <;> simp [h]
    have hncl : c.readyState ≠ ReadyState.CLOSED := by
      rcases hor with h | h <;> simp [h]
    simp [step, disconnect, closeSocket, hno, hncl]
  · intro hm hro
    simp [step, emit, hro, hm]

/-- Witness for C7: disconnecting a CONNECTING client sets the flags
and clears the queue, and an emit while manually disconnected does
nothing. -/
theorem c7_disconnect_clears_queue_witness :
    step (mkClient defaultOptions) .disconnectCall
      = ({ mkClient defaultOptions with
           readyState := .CLOSING, isManuallyDisconnected := true,
           shouldReconnect := false, eventQueue := [] }, []) ∧
    step { mkClient defaultOptions with
           readyState := .CLOSING, isManuallyDisconnected := true,
           shouldReconnect := false, eventQueue := [] } (.emitCall "a" (.num 1))
      = ({ mkClient defaultOptions with
           readyState := .CLOSING, isManuallyDisconnected := true,
           shouldReconnect := false, eventQueue := [] }, []) := by
  constructor
  · exact (c7_disconnect_clears_queue (mkClient defaultOptions) "a" (.num 1)).2.1
      (Or.inr rfl)
  · exact (c7_disconnect_clears_queue _ "a" (.num 1)).2.2 rfl (by decide)

/-- C8, evaluated at the failing input: after one failed reconnection
attempt the open transition fires the reconnect notification, but with
no argument at all, although the attempt count prior to the reset was
1; the README documents the attempt count as the handler argument. -/
theorem c8_reconnect_notification_has_no_payload :
    (run (mkClient defaultOptions) [.socketClose, .fireReconnect]).1.currentAttempt
        = 1 ∧
    (run (mkClient defaultOptions) [.socketClose, .fireReconnect, .socketOpen]).2
      = [Output.notify "disconnect" none, Output.scheduledReconnect 1000,
         Output.notify "reconnect" none] := by
  exact ⟨by decide, by decide⟩

/-- C9: an inbound response frame carrying no error and falsy data is
not routed to the correlator: the pending table is unchanged and the
step settles no promise at all, so a pending request with that
identifier stays pending for its deadline or a later channel close. -/
theorem c9_falsy_data_response_not_correlated (c : ClientState) (f : Frame)
    (id : Nat) (d : Json) (hreq : f.request = none)
    (hresp : f.response = some ⟨some id, d, none⟩)
    (hd : d.truthy = false) :
    (step c (.message f)).1.pendingRequests = c.pendingRequests ∧
    (∀ j, settleCount (step c (.message f)).2 j = 0) := by
  obtain ⟨ev, da, req, resp⟩ := f
  cases req with
  | some r => exact absurd hreq (by simp)
  | none =>
      cases resp with
      | none => exact absurd hresp (by simp)
      | some rp =>
          have hrp : rp = ⟨some id, d, none⟩ := by simpa using hresp
          subst hrp
          have hred : step c (.message ⟨ev, da, none, some ⟨some id, d, none⟩⟩)
              = onMessageEvent c ⟨ev, da, none, some ⟨some id, d, none⟩⟩ := by
            show onMessage c ⟨ev, da, none, some ⟨some id, d, none⟩⟩
                = onMessageEvent c ⟨ev, da, none, some ⟨some id, d, none⟩⟩
            simp [onMessage, onMessageRest, hd]
          rw [hred]
          constructor
          · cases ev with
            | none => rfl
            | some e =>
                by_cases he : e = "__system_handshake_ack" <;>
                  simp [onMessageEvent, he]
          · intro j
            cases ev with
            | none => rfl
            | some e =>
                by_cases he : e = "__system_handshake_ack" <;>
                  simp [onMessageEvent, he, settleCount, isSettleOf]

/-- Witness for C9: a response for pending identifier 0 with data 0 and
no error leaves the request pending. -/
theorem c9_falsy_data_response_not_correlated_witness :
    (step { mkClient defaultOptions with
            readyState := .OPEN, pendingRequests := [0], nextId := 1 }
       (.message ⟨none, .null, none, some ⟨some 0, .num 0, none⟩⟩)).1.pendingRequests
      = [0] :=
  (c9_falsy_data_response_not_correlated
    { mkClient defaultOptions with
      readyState := .OPEN, pendingRequests := [0], nextId := 1 }
    ⟨none, .null, none, some ⟨some 0, .num 0, none⟩⟩ 0 (.num 0)
    rfl rfl (by decide)).1

end Recket

namespace Recket

/-! ### Effects of single steps on the reconnection fields -/

theorem scheduledDelays_append (a b : List Output) :
    scheduledDelays (a ++ b) = scheduledDelays a ++ scheduledDelays b := by
  simp [scheduledDelays, List.filterMap_append]

theorem scheduledDelays_cons (o : Output) (t : List Output) :
    scheduledDelays (o :: t)
      = (match o with | .scheduledReconnect d => [d] | _ => [])
          ++ scheduledDelays t := by
  cases o <;> rfl

theorem scheduledDelays_rejectAll (l : List Nat) (e : Err) :
    scheduledDelays (l.map fun j => Output.rejected j e) = [] := by
  induction l with
  | nil => rfl
  | cons a t ih => simp [scheduledDelays_cons, ih]

theorem emit_effects (c : ClientState) (e : String) (d : Json) :
    (emit c e d).1.readyState = c.readyState ∧
    (emit c e d).1.currentAttempt = c.currentAttempt ∧
    (emit c e d).1.reconnectionAttempts = c.reconnectionAttempts ∧
    (emit c e d).1.reconnectionDelay = c.reconnectionDelay ∧
    (emit c e d).1.reconnectTimers = c.reconnectTimers ∧
    scheduledDelays (emit c e d).2 = [] := by
  unfold emit
  split
  · split
    · exact ⟨rfl, rfl, rfl, rfl, rfl, rfl⟩
    · exact ⟨rfl, rfl, rfl, rfl, rfl, rfl⟩
  · exact ⟨rfl, rfl, rfl, rfl, rfl, rfl⟩

theorem flush_foldl_effects (q : List (String × Json)) :
    ∀ (c0 : ClientState) (acc : List Output),
      (q.foldl flushStep (c0, acc)).1.readyState = c0.readyState ∧
      (q.foldl flushStep (c0, acc)).1.currentAttempt = c0.currentAttempt ∧
      (q.foldl flushStep (c0, acc)).1.reconnectionAttempts
        = c0.reconnectionAttempts ∧
      (q.foldl flushStep (c0, acc)).1.reconnectionDelay = c0.reconnectionDelay ∧
      (q.foldl flushStep (c0, acc)).1.reconnectTimers = c0.reconnectTimers ∧
      scheduledDelays (q.foldl flushStep (c0, acc)).2 = scheduledDelays acc := by
  induction q with
  | nil => intro c0 acc; exact ⟨rfl, rfl, rfl, rfl, rfl, rfl⟩
  | cons ed t ih =>
      intro c0 acc
      obtain ⟨e1, e2, e3, e4, e5, e6⟩ := emit_effects c0 ed.1 ed.2
      obtain ⟨f1, f2, f3, f4, f5, f6⟩ :=
        ih (emit c0 ed.1 ed.2).1 (acc ++ (emit c0 ed.1 ed.2).2)
      simp only [List.foldl_cons, flushStep]
      exact ⟨f1.trans e1, f2.trans e2, f3.trans e3, f4.trans e4, f5.trans e5,
        f6.trans (by rw [scheduledDelays_append, e6, List.append_nil])⟩

theorem flushEventQueue_effects (c : ClientState) :
    (flushEventQueue c).1.readyState = c.readyState ∧
    (flushEventQueue c).1.currentAttempt = c.currentAttempt ∧
    (flushEventQueue c).1.reconnectionAttempts = c.reconnectionAttempts ∧
    (flushEventQueue c).1.reconnectionDelay = c.reconnectionDelay ∧
    (flushEventQueue c).1.reconnectTimers = c.reconnectTimers ∧
    scheduledDelays (flushEventQueue c).2 = [] := by
  obtain ⟨f1, f2, f3, f4, f5, f6⟩ := flush_foldl_effects c.eventQueue c []
  simp only [flushEventQueue]
  exact ⟨f1, f2, f3, f4, f5, f6⟩

theorem onOpen_resets (c : ClientState) :
    (onOpen c).1.currentAttempt = 0 ∧
    (onOpen c).1.reconnectionDelay = 1000 ∧
    (onOpen c).1.reconnectionAttempts = c.reconnectionAttempts ∧
    scheduledDelays (onOpen c).2 = [] := by
  simp only [onOpen]
  obtain ⟨f1, f2, f3, f4, f5, f6⟩ := flushEventQueue_effects
    { c with readyState := .OPEN, currentAttempt := 0, shouldReconnect := true,
             isManuallyDisconnected := false, reconnectionDelay := 1000 }
  refine ⟨f2, f4, f3, ?_⟩
  rw [scheduledDelays_append, f6, List.append_nil]
  split <;> rfl

theorem onClose_effects (c : ClientState) :
    (onClose c).1.currentAttempt = c.currentAttempt ∧
    (onClose c).1.reconnectionAttempts = c.reconnectionAttempts := by
  simp only [onClose, clearPendingRequests, tryReconnect]
  split
  · split
    · exact ⟨rfl, rfl⟩
    · exact ⟨rfl, rfl⟩
  · exact ⟨rfl, rfl⟩

theorem onClose_sched_of_max (c : ClientState)
    (h : c.reconnectionAttempts ≤ c.currentAttempt) :
    scheduledDelays (onClose c).2 = [] := by
  by_cases hb : (!c.isManuallyDisconnected && c.shouldReconnect) = true
  · have hred : (onClose c).2
        = Output.notify "disconnect" none ::
            ((c.pendingRequests.map fun id =>
                Output.rejected id ⟨503, "WebSocket connection closed"⟩)
              ++ [Output.notify "reconnect_failed" none]) := by
      simp [onClose, clearPendingRequests, tryReconnect, hb, h]
    rw [hred]
    simp [scheduledDelays_cons, scheduledDelays_append, scheduledDelays_rejectAll,
      scheduledDelays]
  · have hred : (onClose c).2
        = Output.notify "disconnect" none ::
            (c.pendingRequests.map fun id =>
              Output.rejected id ⟨503, "WebSocket connection closed"⟩) := by
      simp [onClose, clearPendingRequests, tryReconnect, hb]
    rw [hred]
    simp [scheduledDelays_cons, scheduledDelays_rejectAll]

theorem onMessageEvent_effects (c : ClientState) (f : Frame) :
    (onMessageEvent c f).1 = c ∧ scheduledDelays (onMessageEvent c f).2 = [] := by
  obtain ⟨ev, da, req, resp⟩ := f
  cases ev with
  | none => exact ⟨rfl, rfl⟩
  | some e =>
      by_cases he : e = "__system_handshake_ack" <;>
        simp [onMessageEvent, he, scheduledDelays]

theorem handleIncomingResponse_effects (c : ClientState) (id : Nat) (d : Json)
    (err : Option Err) :
    ((handleIncomingResponse c id d err).1 = c ∨
     (handleIncomingResponse c id d err).1
       = { c with pendingRequests := c.pendingRequests.erase id }) ∧
    scheduledDelays (handleIncomingResponse c id d err).2 = [] := by
  unfold handleIncomingResponse
  split
  · cases err with
    | some e => exact ⟨Or.inr rfl, rfl⟩
    | none => exact ⟨Or.inr rfl, rfl⟩
  · exact ⟨Or.inl rfl, rfl⟩

theorem onMessage_effects (c : ClientState) (f : Frame) :
    ((onMessage c f).1 = c ∨
     ∃ id, (onMessage c f).1
        = { c with pendingRequests := c.pendingRequests.erase id }) ∧
    scheduledDelays (onMessage c f).2 = [] := by
  obtain ⟨ev, da, req, resp⟩ := f
  have hrest : ∀ g : Frame,
      ((onMessageRest c g).1 = c ∨
       ∃ id, (onMessageRest c g).1
          = { c with pendingRequests := c.pendingRequests.erase id }) ∧
      scheduledDelays (onMessageRest c g).2 = [] := by
    intro g
    obtain ⟨ev1, da1, req1, resp1⟩ := g
    cases resp1 with
    | none =>
        obtain ⟨h1, h2⟩ := onMessageEvent_effects c ⟨ev1, da1, req1, none⟩
        exact ⟨Or.inl h1, h2⟩
    | some rp =>
        obtain ⟨rid0, rdata, rerr⟩ := rp
        cases rid0 with
        | none =>
            obtain ⟨h1, h2⟩ := onMessageEvent_effects c
              ⟨ev1, da1, req1, some ⟨none, rdata, rerr⟩⟩
            exact ⟨Or.inl h1, h2⟩
        | some rid =>
            by_cases hg : (rdata.truthy || rerr.isSome) = true
            · have hred : onMessageRest c ⟨ev1, da1, req1, some ⟨some rid, rdata, rerr⟩⟩
                  = handleIncomingResponse c rid rdata rerr := by
                simp [onMessageRest, hg]
              rw [hred]
              obtain ⟨h1, h2⟩ := handleIncomingResponse_effects c rid rdata rerr
              rcases h1 with h1 | h1
              · exact ⟨Or.inl h1, h2⟩
              · exact ⟨Or.inr ⟨rid, h1⟩, h2⟩
            · have hred : onMessageRest c ⟨ev1, da1, req1, some ⟨some rid, rdata, rerr⟩⟩
                  = onMessageEvent c ⟨ev1, da1, req1, some ⟨some rid, rdata, rerr⟩⟩ := by
                simp [onMessageRest, hg]
              rw [hred]
              obtain ⟨h1, h2⟩ := onMessageEvent_effects c
                ⟨ev1, da1, req1, some ⟨some rid, rdata, rerr⟩⟩
              exact ⟨Or.inl h1, h2⟩
  cases req with
  | none => exact hrest _
  | some r =>
      obtain ⟨rid0, ep0, rdata⟩ := r
      cases rid0 with
      | none => exact hrest _
      | some rid =>
          cases ep0 with
          | none => exact hrest _
          | some ep =>
              by_cases hep : ep.isEmpty = true
              · have hred : onMessage c ⟨ev, da, some ⟨some rid, some ep, rdata⟩, resp⟩
                    = onMessageRest c ⟨ev, da, some ⟨some rid, some ep, rdata⟩, resp⟩ := by
                  simp [onMessage, hep]
                rw [hred]
                exact hrest _
              · cases hal : c.allowServerRequests with
                | false =>
                    have hred : onMessage c ⟨ev, da, some ⟨some rid, some ep, rdata⟩, resp⟩
                        = (c, []) := by
                      simp [onMessage, hep, hal]
                    rw [hred]
                    exact ⟨Or.inl rfl, rfl⟩
                | true =>
                    have hred : onMessage c ⟨ev, da, some ⟨some rid, some ep, rdata⟩, resp⟩
                        = handleIncomingRequest c rid ep rdata := by
                      simp [onMessage, hep, hal]
                    rw [hred]
                    unfold handleIncomingRequest
                    split
                    · exact ⟨Or.inl rfl, rfl⟩
                    · exact ⟨Or.inl rfl, rfl⟩

theorem step_attempts_const (c : ClientState) (i : Input) :
    (step c i).1.reconnectionAttempts = c.reconnectionAttempts := by
  cases i with
  | emitCall e d => exact (emit_effects c e d).2.2.1
  | requestCall ep d t =>
      simp only [step, request]
      split
      · rfl
      · split
        · rfl
        · rfl
  | onRequestCall ep =>
      simp only [step, onRequest]
      split
      · rfl
      · rfl
  | enableSrv sec =>
      simp only [step, enableServerRequests]
      split
      · rfl
      · rfl
  | disableSrv => rfl
  | closeCall =>
      simp only [step, closeSocket]
      split
      · rfl
      · rfl
  | disconnectCall =>
      simp only [step, disconnect, closeSocket]
      split
      · rfl
      · split
        · rfl
        · rfl
  | resumeCall =>
      simp only [step, reconnectResume, setupSocket]
      split
      · rfl
      · rfl
  | message f =>
      show (onMessage c f).1.reconnectionAttempts = c.reconnectionAttempts
      rcases (onMessage_effects c f).1 with h | ⟨id, h⟩
      · rw [h]
      · rw [h]
  | parseFailure => rfl
  | socketOpen =>
      simp only [step]
      split
      · exact (onOpen_resets c).2.2.1
      · rfl
  | socketClose =>
      simp only [step]
      split
      · rfl
      · exact (onClose_effects c).2
  | fireDeadline id =>
      simp only [step, fireDeadline]
      split
      · rfl
      · rfl
  | fireReconnect =>
      simp only [step, fireReconnect, reconnectResume, setupSocket]
      split
      · rfl
      · split
        · rfl
        · rfl

theorem step_attempt_mono (c : ClientState) (i : Input)
    (h : i ≠ Input.socketOpen) :
    c.currentAttempt ≤ (step c i).1.currentAttempt := by
  cases i with
  | emitCall e d => exact le_of_eq (emit_effects c e d).2.1.symm
  | requestCall ep d t =>
      simp only [step, request]
      split
      · exact Nat.le_refl _
      · split
        · exact Nat.le_refl _
        · exact Nat.le_refl _
  | onRequestCall ep =>
      simp only [step, onRequest]
      split
      · exact Nat.le_refl _
      · exact Nat.le_refl _
  | enableSrv sec =>
      simp only [step, enableServerRequests]
      split
      · exact Nat.le_refl _
      · exact Nat.le_refl _
  | disableSrv => exact Nat.le_refl _
  | closeCall =>
      simp only [step, closeSocket]
      split
      · exact Nat.le_refl _
      · exact Nat.le_refl _
  | disconnectCall =>
      simp only [step, disconnect, closeSocket]
      split
      · exact Nat.le_refl _
      · split
        · exact Nat.le_refl _
        · exact Nat.le_refl _
  | resumeCall =>
      simp only [step, reconnectResume, setupSocket]
      split
      · exact Nat.le_refl _
      · exact Nat.le_refl _
  | message f =>
      show c.currentAttempt ≤ (onMessage c f).1.currentAttempt
      rcases (onMessage_effects c f).1 with hm | ⟨id, hm⟩
      · rw [hm]
      · rw [hm]
  | parseFailure => exact Nat.le_refl _
  | socketOpen => exact absurd rfl h
  | socketClose =>
      simp only [step]
      split
      · exact Nat.le_refl _
      · exact le_of_eq (onClose_effects c).1.symm
  | fireDeadline id =>
      simp only [step, fireDeadline]
      split
      · exact Nat.le_refl _
      · exact Nat.le_refl _
  | fireReconnect =>
      simp only [step, fireReconnect, reconnectResume, setupSocket]
      split
      · exact Nat.le_refl _
      · split
        · exact Nat.le_succ _
        · exact Nat.le_succ _

theorem step_sched_of_max (c : ClientState) (i : Input)
    (h : c.reconnectionAttempts ≤ c.currentAttempt) :
    scheduledDelays (step c i).2 = [] := by
  cases i with
  | emitCall e d => exact (emit_effects c e d).2.2.2.2.2
  | requestCall ep d t =>
      simp only [step, request]
      split
      · rfl
      · split
        · rfl
        · rfl
  | onRequestCall ep =>
      simp only [step, onRequest]
      split
      · rfl
      · rfl
  | enableSrv sec =>
      simp only [step, enableServerRequests]
      split
      · rfl
      · rfl
  | disableSrv => rfl
  | closeCall => rfl
  | disconnectCall =>
      simp only [step, disconnect, closeSocket]
      split
      · rfl
      · split
        · rfl
        · rfl
  | resumeCall => rfl
  | message f => exact (onMessage_effects c f).2
  | parseFailure => rfl
  | socketOpen =>
      simp only [step]
      split
      · exact (onOpen_resets c).2.2.2
      · rfl
  | socketClose =>
      simp only [step]
      split
      · rfl
      · exact onClose_sched_of_max c h
  | fireDeadline id =>
      simp only [step, fireDeadline]
      split
      · rfl
      · rfl
  | fireReconnect =>
      simp only [step, fireReconnect, reconnectResume, setupSocket]
      split
      · rfl
      · split
        · rfl
        · rfl

theorem run_sched_of_max (js : List Input) :
    ∀ c : ClientState, c.reconnectionAttempts ≤ c.currentAttempt →
      Input.socketOpen ∉ js → scheduledDelays (run c js).2 = [] := by
  induction js with
  | nil => intro c hA hO; rfl
  | cons i t ih =>
      intro c hA hO
      have hio : i ≠ Input.socketOpen := by
        intro hi
        exact hO (by simp [hi])
      have hA' : (step c i).1.reconnectionAttempts ≤ (step c i).1.currentAttempt := by
        rw [step_attempts_const]
        exact le_trans hA (step_attempt_mono c i hio)
      have h1 := step_sched_of_max c i hA
      have h2 := ih (step c i).1 hA' (fun hmem => hO (by simp [hmem]))
      simp [run, scheduledDelays_append, h1, h2]

end Recket

namespace Recket

/-! ### Claim C5 -/

/-- C5 (amended: the maximum defaults to 5): once the attempt count has
reached the configured maximum, the automatic close path fires the
reconnect_failed notification, rejects the pending requests and
schedules nothing, and no later step short of a successful open ever
schedules an automatic reconnection attempt, while a manual resume from
the CLOSED state still produces a fresh CONNECTING socket. -/
theorem c5_max_attempts_terminal (c : ClientState) (js : List Input)
    (hA : c.reconnectionAttempts ≤ c.currentAttempt)
    (hO : Input.socketOpen ∉ js) :
    scheduledDelays (run c js).2 = [] ∧
    (c.isManuallyDisconnected = false → c.shouldReconnect = true →
       c.readyState ≠ ReadyState.CLOSED →
       (step c .socketClose).2
         = Output.notify "disconnect" none ::
             ((c.pendingRequests.map fun id =>
                 Output.rejected id ⟨503, "WebSocket connection closed"⟩)
               ++ [Output.notify "reconnect_failed" none])) ∧
    (c.readyState = ReadyState.CLOSED →
       (step c .resumeCall).1.readyState = ReadyState.CONNECTING) := by
  refine ⟨run_sched_of_max js c hA hO, ?_, ?_⟩
  · intro hm hs hr
    have hstep : step c .socketClose = onClose c := by simp [step, hr]
    rw [hstep]
    simp [onClose, clearPendingRequests, tryReconnect, hm, hs, hA]
  · intro hr
    simp [step, reconnectResume, setupSocket, hr]

/-- Witness for C5: a default client that has exhausted its five
attempts never schedules another automatic attempt over a close, a
manual resume and another close. -/
theorem c5_max_attempts_terminal_witness :
    scheduledDelays (run (run (mkClient defaultOptions) (failCycles 5)).1
        [Input.socketClose, Input.resumeCall, Input.socketClose]).2 = [] :=
  (c5_max_attempts_terminal (run (mkClient defaultOptions) (failCycles 5)).1
    [Input.socketClose, Input.resumeCall, Input.socketClose]
    (by decide) (by decide)).1

/-- Counterexample for C5 as stated: the configured maximum attempts
defaults to 5, not to an effectively unbounded value; a default client
that has failed five reconnection attempts fires reconnect_failed on
the next close and schedules no further automatic attempt. -/
theorem c5_counterexample_default_is_five :
    (mkClient defaultOptions).reconnectionAttempts = 5 ∧
    Output.notify "reconnect_failed" none
      ∈ (run (mkClient defaultOptions) (failCycles 5 ++ [.socketClose])).2 ∧
    scheduledDelays
        (run (mkClient defaultOptions) (failCycles 5 ++ [.socketClose])).2
      = [1000, 2000, 4000, 8000, 16000] := by
  exact ⟨rfl, by decide, by decide⟩

/-! ### Claim C4 -/

theorem codeBackoffWait_step (B k : Nat) :
    min 30000 (codeBackoffWait B k * 2) = codeBackoffWait B (k + 1) := by
  cases k with
  | zero =>
      simp [codeBackoffWait, pow_one]
  | succ k =>
      show min 30000 (min 30000 (B * 2 ^ (k + 1)) * 2)
          = min 30000 (B * 2 ^ (k + 2))
      rcases le_or_lt (B * 2 ^ (k + 1)) 30000 with hle | hgt
      · rw [Nat.min_eq_right hle]
        have hpow : B * 2 ^ (k + 2) = B * 2 ^ (k + 1) * 2 := by ring
        rw [hpow]
      · rw [Nat.min_eq_left (le_of_lt hgt)]
        have hpow : B * 2 ^ (k + 2) = B * 2 ^ (k + 1) * 2 := by ring
        have hge : 30000 ≤ B * 2 ^ (k + 2) := by rw [hpow]; omega
        rw [Nat.min_eq_left (by omega), Nat.min_eq_left hge]

/-- One failed automatic reconnection cycle from a CONNECTING state with
nothing pending: the close schedules a timer for the current delay, and
the timer firing increments the attempt count, creates a fresh
CONNECTING socket and doubles the delay capped at 30000. -/
theorem cycle_step (c : ClientState)
    (hrs : c.readyState = ReadyState.CONNECTING)
    (hpend : c.pendingRequests = [])
    (hman : c.isManuallyDisconnected = false)
    (hsr : c.shouldReconnect = true)
    (hlt : c.currentAttempt < c.reconnectionAttempts) :
    run c [Input.socketClose, Input.fireReconnect]
      = ({ c with
           readyState := .CONNECTING,
           currentAttempt := c.currentAttempt + 1,
           reconnectionDelay := min 30000 (c.reconnectionDelay * 2) },
         [Output.notify "disconnect" none,
          Output.scheduledReconnect c.reconnectionDelay]) := by
  have hne : c.readyState ≠ ReadyState.CLOSED := by rw [hrs]; intro hh; cases hh
  have hge : ¬ (c.currentAttempt ≥ c.reconnectionAttempts) := Nat.not_le.mpr hlt
  have h1 : step c Input.socketClose
      = ({ c with
           readyState := .CLOSED, pendingRequests := [],
           reconnectTimers := c.reconnectTimers + 1 },
         [Output.notify "disconnect" none,
          Output.scheduledReconnect c.reconnectionDelay]) := by
    simp [step, hne, onClose, clearPendingRequests, tryReconnect, hman, hsr,
      hge, hpend]
  have h2 : step { c with
        readyState := ReadyState.CLOSED,
        pendingRequests := ([] : List Nat),
        reconnectTimers := c.reconnectTimers + 1 } Input.fireReconnect
      = ({ c with
           readyState := .CONNECTING, pendingRequests := [],
           reconnectTimers := c.reconnectTimers,
           currentAttempt := c.currentAttempt + 1,
           reconnectionDelay := min 30000 (c.reconnectionDelay * 2) }, []) := by
    simp [step, fireReconnect, reconnectResume, setupSocket]
  simp [run, h1, h2, hpend]

/-- The state and the scheduled waits after k consecutive failed
automatic reconnection cycles from a fresh client. -/
theorem run_failCycles (o : Options) (k : Nat)
    (hs : (mkClient o).shouldReconnect = true)
    (hk : k ≤ (mkClient o).reconnectionAttempts) :
    (run (mkClient o) (failCycles k)).1
      = { mkClient o with
          currentAttempt := k,
          reconnectionDelay :=
            codeBackoffWait (mkClient o).reconnectionDelay k } ∧
    scheduledDelays (run (mkClient o) (failCycles k)).2
      = (List.range k).map (codeBackoffWait (mkClient o).reconnectionDelay) := by
  induction k with
  | zero => exact ⟨rfl, rfl⟩
  | succ k ih =>
      obtain ⟨ihs, iho⟩ := ih (le_trans (Nat.le_succ k) hk)
      have hstep := cycle_step
        { mkClient o with
          currentAttempt := k,
          reconnectionDelay := codeBackoffWait (mkClient o).reconnectionDelay k }
        rfl rfl rfl hs
        (show k < (mkClient o).reconnectionAttempts by omega)
      rw [show failCycles (k + 1)
          = failCycles k ++ [Input.socketClose, Input.fireReconnect] from rfl]
      rw [run_append, ihs, hstep]
      constructor
      · show ({ mkClient o with
            currentAttempt := k + 1,
            reconnectionDelay :=
              min 30000 (codeBackoffWait (mkClient o).reconnectionDelay k * 2) }
            : ClientState)
          = { mkClient o with
              currentAttempt := k + 1,
              reconnectionDelay :=
                codeBackoffWait (mkClient o).reconnectionDelay (k + 1) }
        rw [codeBackoffWait_step]
      · rw [scheduledDelays_append, iho]
        rw [show scheduledDelays
            [Output.notify "disconnect" none,
             Output.scheduledReconnect
               (codeBackoffWait (mkClient o).reconnectionDelay k)]
            = [codeBackoffWait (mkClient o).reconnectionDelay k] from rfl]
        rw [List.range_succ, List.map_append]
        rfl

/-- C4 (amended): over a run of k consecutive failed automatic
reconnection cycles from a fresh client, the scheduled waits follow B,
min(2B, 30000), min(4B, 30000), ..., where B is the configured base
delay, default 1000, and the cap is the hardcoded 30000 rather than a
configurable maxDelayMs; the attempt count climbs to k without
resetting per attempt, and only a successful open resets it to 0 and
the delay to the literal 1000. -/
theorem c4_backoff_doubles_capped_at_30000 (o : Options) (k : Nat)
    (hs : (mkClient o).shouldReconnect = true)
    (hk : k ≤ (mkClient o).reconnectionAttempts) :
    scheduledDelays (run (mkClient o) (failCycles k)).2
      = (List.range k).map (codeBackoffWait (mkClient o).reconnectionDelay) ∧
    (run (mkClient o) (failCycles k)).1.currentAttempt = k ∧
    (step (run (mkClient o) (failCycles k)).1 .socketOpen).1.currentAttempt = 0 ∧
    (step (run (mkClient o) (failCycles k)).1 .socketOpen).1.reconnectionDelay
      = 1000 := by
  obtain ⟨h1, h2⟩ := run_failCycles o k hs hk
  have hopen : step (run (mkClient o) (failCycles k)).1 .socketOpen
      = onOpen (run (mkClient o) (failCycles k)).1 := by
    rw [h1]
    simp [step, mkClient]
  refine ⟨h2, by rw [h1], ?_, ?_⟩
  · rw [hopen]
    exact (onOpen_resets _).1
  · rw [hopen]
    exact (onOpen_resets _).2.1

/-- Witness for C4: five failed cycles of a default client schedule the
waits 1000, 2000, 4000, 8000, 16000. -/
theorem c4_backoff_doubles_capped_at_30000_witness :
    scheduledDelays (run (mkClient defaultOptions) (failCycles 5)).2
      = (List.range 5).map
          (codeBackoffWait (mkClient defaultOptions).reconnectionDelay) :=
  (c4_backoff_doubles_capped_at_30000 defaultOptions 5 rfl (by decide)).1

/-- Counterexample for C4 as stated: with all defaults the fifth wait is
16000, while the claimed sequence, capped at a configured maxDelayMs
defaulting to 10000, would make it 10000. -/
theorem c4_counterexample_no_configurable_cap :
    scheduledDelays (run (mkClient defaultOptions) (failCycles 5)).2
        = [1000, 2000, 4000, 8000, 16000] ∧
    (List.range 5).map (specBackoffWait 1000 10000)
        = [1000, 2000, 4000, 8000, 10000] ∧
    scheduledDelays (run (mkClient defaultOptions) (failCycles 5)).2
        ≠ (List.range 5).map (specBackoffWait 1000 10000) := by
  exact ⟨by decide, by decide, by decide⟩

end Recket

namespace Recket

/-! ### Claim C10 -/

/-- Emitting a list of events while the channel is not open and not
manually disconnected only appends them to the queue, in order, with no
outputs. -/
theorem run_emitCalls (es : List (String × Json)) :
    ∀ c : ClientState, c.readyState ≠ ReadyState.OPEN →
      c.isManuallyDisconnected = false →
      run c (es.map fun ed => Input.emitCall ed.1 ed.2)
        = ({ c with eventQueue := c.eventQueue ++ es }, []) := by
  induction es with
  | nil =>
      intro c h1 h2
      simp [run]
  | cons ed t ih =>
      intro c h1 h2
      have hstep : step c (Input.emitCall ed.1 ed.2)
          = ({ c with eventQueue := c.eventQueue ++ [(ed.1, ed.2)] }, []) := by
        simp [step, emit, h1, h2]
      simp only [List.map_cons, run, hstep]
      rw [ih { c with eventQueue := c.eventQueue ++ [(ed.1, ed.2)] } h1 h2]
      simp

/-- A full close and reopen cycle: the public close method moves the
socket to CLOSING, the close event schedules a reconnection without
touching the queue, the timer creates a fresh socket, and the open
transition fires the reconnect notification and flushes the queue. -/
theorem closeOpen_cycle (c : ClientState)
    (hrs : c.readyState = ReadyState.CONNECTING)
    (hpend : c.pendingRequests = [])
    (hman : c.isManuallyDisconnected = false)
    (hsr : c.shouldReconnect = true)
    (hlt : c.currentAttempt < c.reconnectionAttempts) :
    run c [Input.closeCall, Input.socketClose, Input.fireReconnect,
           Input.socketOpen]
      = ({ c with
           readyState := .OPEN, currentAttempt := 0, shouldReconnect := true,
           isManuallyDisconnected := false, reconnectionDelay := 1000,
           eventQueue := [] },
         [Output.notify "disconnect" none,
          Output.scheduledReconnect c.reconnectionDelay,
          Output.notify "reconnect" none]
           ++ c.eventQueue.map fun ed => Output.sentEvent ed.1 ed.2) := by
  have hge : ¬ (c.currentAttempt ≥ c.reconnectionAttempts) := Nat.not_le.mpr hlt
  have h1 : step c Input.closeCall
      = ({ c with readyState := .CLOSING, pendingRequests := [] }, []) := by
    simp [step, closeSocket, hrs, hpend]
  have h2 : step { c with
        readyState := ReadyState.CLOSING,
        pendingRequests := ([] : List Nat) } Input.socketClose
      = ({ c with
           readyState := .CLOSED, pendingRequests := [],
           reconnectTimers := c.reconnectTimers + 1 },
         [Output.notify "disconnect" none,
          Output.scheduledReconnect c.reconnectionDelay]) := by
    simp [step, onClose, clearPendingRequests, tryReconnect, hman, hsr, hge,
      hpend]
  have h3 : step { c with
        readyState := ReadyState.CLOSED,
        pendingRequests := ([] : List Nat),
        reconnectTimers := c.reconnectTimers + 1 } Input.fireReconnect
      = ({ c with
           readyState := .CONNECTING, pendingRequests := [],
           reconnectTimers := c.reconnectTimers,
           currentAttempt := c.currentAttempt + 1,
           reconnectionDelay := min 30000 (c.reconnectionDelay * 2) }, []) := by
    simp [step, fireReconnect, reconnectResume, setupSocket]
  have hflush := flushEventQueue_open (c := { c with
    readyState := ReadyState.OPEN, pendingRequests := ([] : List Nat),
    reconnectTimers := c.reconnectTimers, currentAttempt := 0,
    shouldReconnect := true, isManuallyDisconnected := false,
    reconnectionDelay := 1000 }) rfl
  have h4 : step { c with
        readyState := ReadyState.CONNECTING,
        pendingRequests := ([] : List Nat),
        reconnectTimers := c.reconnectTimers,
        currentAttempt := c.currentAttempt + 1,
        reconnectionDelay := min 30000 (c.reconnectionDelay * 2) }
        Input.socketOpen
      = ({ c with
           readyState := .OPEN, pendingRequests := [],
           reconnectTimers := c.reconnectTimers, currentAttempt := 0,
           shouldReconnect := true, isManuallyDisconnected := false,
           reconnectionDelay := 1000, eventQueue := [] },
         Output.notify "reconnect" none
           :: c.eventQueue.map fun ed => Output.sentEvent ed.1 ed.2) := by
    have hred : step { c with
        readyState := ReadyState.CONNECTING,
        pendingRequests := ([] : List Nat),
        reconnectTimers := c.reconnectTimers,
        currentAttempt := c.currentAttempt + 1,
        reconnectionDelay := min 30000 (c.reconnectionDelay * 2) }
        Input.socketOpen
        = onOpen { c with
            readyState := ReadyState.CONNECTING,
            pendingRequests := ([] : List Nat),
            reconnectTimers := c.reconnectTimers,
            currentAttempt := c.currentAttempt + 1,
            reconnectionDelay := min 30000 (c.reconnectionDelay * 2) } := by
      simp [step]
    rw [hred]
    simp only [onOpen]
    rw [hflush]
    simp [Nat.succ_pos]
  simp [run, h1, h2, h3, h4, hpend]

/-- Counterexample for C10 as stated: a client constructed with
reconnection enabled but a zero maximum attempt count gets no scheduled
reconnection attempt after close; the close event fires
reconnect_failed instead. -/
theorem c10_counterexample_zero_attempts :
    (mkClient ⟨some 0, none, some true⟩).shouldReconnect = true ∧
    scheduledDelays (run (mkClient ⟨some 0, none, some true⟩)
        [.closeCall, .socketClose]).2 = [] ∧
    Output.notify "reconnect_failed" none
      ∈ (run (mkClient ⟨some 0, none, some true⟩) [.closeCall, .socketClose]).2 := by
  exact ⟨rfl, by decide, by decide⟩

/-- C10 (amended: with a positive maximum attempt count): the public
close method, unlike disconnect, keeps the manual flag, the
reconnection flag and the event queue untouched and emits nothing; and
for a fresh client constructed with reconnection enabled and a positive
maximum attempt count, events emitted before a close are preserved, the
close event schedules an automatic reconnection attempt, and the next
open flushes exactly those events to the transport, in order. -/
theorem c10_close_preserves_reconnection_and_queue (o : Options)
    (c : ClientState) (es : List (String × Json))
    (hs : (mkClient o).shouldReconnect = true)
    (hA : 1 ≤ (mkClient o).reconnectionAttempts) :
    ((step c .closeCall).1.isManuallyDisconnected = c.isManuallyDisconnected ∧
     (step c .closeCall).1.shouldReconnect = c.shouldReconnect ∧
     (step c .closeCall).1.eventQueue = c.eventQueue ∧
     (step c .closeCall).2 = []) ∧
    (Output.scheduledReconnect (mkClient o).reconnectionDelay
        ∈ (run (mkClient o) (es.map (fun ed => Input.emitCall ed.1 ed.2)
            ++ [Input.closeCall, Input.socketClose, Input.fireReconnect,
                Input.socketOpen])).2 ∧
     (run (mkClient o) (es.map (fun ed => Input.emitCall ed.1 ed.2)
            ++ [Input.closeCall, Input.socketClose, Input.fireReconnect,
                Input.socketOpen])).2.filter isSentEvent
        = es.map fun ed => Output.sentEvent ed.1 ed.2) := by
  constructor
  · simp only [step, closeSocket]
    split
    · simp
    · simp
  · have hemits := run_emitCalls es (mkClient o)
      (fun hh => nomatch hh) rfl
    have hcycle := closeOpen_cycle
      { mkClient o with eventQueue := (mkClient o).eventQueue ++ es }
      rfl rfl rfl hs hA
    rw [run_append, hemits, hcycle]
    constructor
    · simp
    · simp only [List.nil_append, List.filter_append]
      rw [show (([Output.notify "disconnect" none,
          Output.scheduledReconnect
            ({ mkClient o with
               eventQueue := (mkClient o).eventQueue ++ es }
              : ClientState).reconnectionDelay,
          Output.notify "reconnect" none]).filter isSentEvent) = [] from rfl]
      rw [List.nil_append]
      rw [List.filter_eq_self.mpr]
      · simp [mkClient]
      · intro a ha
        obtain ⟨ed, hed, rfl⟩ := List.mem_map.mp ha
        rfl

/-- Witness for C10: one queued event survives close and is flushed
after the automatic reconnection and open. -/
theorem c10_close_preserves_reconnection_and_queue_witness :
    (run (mkClient defaultOptions)
        ([("a", Json.num 1)].map (fun ed => Input.emitCall ed.1 ed.2)
          ++ [Input.closeCall, Input.socketClose, Input.fireReconnect,
              Input.socketOpen])).2.filter isSentEvent
      = [("a", Json.num 1)].map fun ed => Output.sentEvent ed.1 ed.2 :=
  (c10_close_preserves_reconnection_and_queue defaultOptions
    (mkClient defaultOptions) [("a", Json.num 1)] rfl (by decide)).2.2

end Recket
